import Mathlib

/-!
Verification of the syncnswim repository core against its specification.

The Python sources are shallowly embedded: strings are lists of characters,
the device filesystem is an explicit record, fallible operations return
`Option`, and each embedded function mirrors the control flow of the
corresponding Python function (file and line references in the doc comments).
-/

set_option maxRecDepth 8000

namespace SyncNSwim

/-! ## Character-list utilities (embedding of Python string operations) -/

abbrev Chars := List Char

/-- Python `s.lower()`, restricted to the per-character lowering used here. -/
def lowerChars (l : Chars) : Chars := l.map Char.toLower

/-- Python `s.startswith(pat)`: `startsWithSeq pat s`. -/
def startsWithSeq : Chars → Chars → Bool
  | [], _ => true
  | _ :: _, [] => false
  | p :: ps, c :: cs => p == c && startsWithSeq ps cs

/-- Python substring test `pat in s`: `containsSeq pat s`. -/
def containsSeq (pat : Chars) : Chars → Bool
  | [] => pat.isEmpty
  | c :: rest => startsWithSeq pat (c :: rest) || containsSeq pat rest

/-- Python `s.endswith(suf)`. -/
def endsWithSeq (suf l : Chars) : Bool := startsWithSeq suf.reverse l.reverse

/-- The case-insensitive matching rule used by every detection method of
`StorageDetector.find_device_mount_point`: `pattern.lower() in candidate.lower()`. -/
def matchCI (pat cand : Chars) : Bool := containsSeq (lowerChars pat) (lowerChars cand)

/-- Python `s.split(',')` (storage options parsing, `file_transfer.py:128`). -/
def splitComma : Chars → List Chars
  | [] => [[]]
  | c :: rest =>
    let r := splitComma rest
    if c == ',' then [] :: r
    else
      match r with
      | [] => [[c]]
      | g :: gs => (c :: g) :: gs

/-- The mount-path normalisation `mountpoint.replace('\\040', ' ').replace('\\x20', ' ')`
from `file_transfer.py:119` and `storage_detector.py:142`. -/
def normalizeMp : Chars → Chars
  | '\\' :: '0' :: '4' :: '0' :: rest => ' ' :: normalizeMp rest
  | '\\' :: 'x' :: '2' :: '0' :: rest => ' ' :: normalizeMp rest
  | c :: rest => c :: normalizeMp rest
  | [] => []

/-- Python `os.path.basename` for the slash-separated paths used here. -/
def basenameOf (p : Chars) : Chars := (p.reverse.takeWhile (fun c => c != '/')).reverse

/-- Python `os.path.dirname` for the slash-separated paths used here. -/
def dirnameOf (p : Chars) : Chars :=
  match p.reverse.dropWhile (fun c => c != '/') with
  | [] => []
  | _ :: rest => rest.reverse

/-- Python `os.path.join a b` for a nonempty `a` with no trailing slash. -/
def joinPath (a b : Chars) : Chars := a ++ '/' :: b

/-! ## DeviceLocator: `StorageDetector.find_device_mount_point` (storage_detector.py:64-231)

A mount-table state is a list of `MountRec`: the mounted removable disk
drives of the host, as the detector's sources (lsblk, /proc/mounts with
blkid labels, the removable-media directories, df) report them.  `name` is
the kernel block-device name (lsblk NAME column), `device` the /dev path,
`label` the filesystem label (absent on label-less filesystems), and
`mountpoint` the decoded mount path. -/

structure MountRec where
  name : Chars
  device : Chars
  label : Option Chars
  mountpoint : Chars
deriving DecidableEq

/-- Label matching of a record: `label and pattern.lower() in label.lower()`. -/
def labelMatch (pat : Chars) (r : MountRec) : Bool :=
  match r.label with
  | some l => matchCI pat l
  | none => false

/-- Mount-path matching of a record: `pattern.lower() in mountpoint.lower()`. -/
def mpMatch (pat : Chars) (r : MountRec) : Bool := matchCI pat r.mountpoint

/-- A record matches when its label or its mount path contains the pattern
case-insensitively (the shared rule of all four detection methods). -/
def matchesRec (pat : Chars) (r : MountRec) : Bool := labelMatch pat r || mpMatch pat r

/-- `name.startswith('sd') or name.startswith('mmcblk')` (storage_detector.py:99). -/
def diskDevName (n : Chars) : Bool :=
  startsWithSeq "sd".toList n || startsWithSeq "mmcblk".toList n

/-- Well-formedness of a mount-table record: it is a mounted disk drive
(kernel name with a disk prefix, nonempty mount path) and its mount path is
already decoded (normalisation is a fixed point on it). -/
def wfRec (r : MountRec) : Bool :=
  diskDevName r.name && !r.mountpoint.isEmpty && (normalizeMp r.mountpoint == r.mountpoint)

/-- Method 1 (storage_detector.py:77-119): scan lsblk rows; on a mounted disk
drive whose label, else mount path, matches, return that mount path. -/
def method1 (pat : Chars) : List MountRec → Option Chars
  | [] => none
  | r :: rest =>
    if !r.mountpoint.isEmpty && diskDevName r.name && matchesRec pat r then some r.mountpoint
    else method1 pat rest

/-- `'/media' in mountpoint or '/mnt' in mountpoint or '/run/media' in mountpoint`
(storage_detector.py:140 and 215). -/
def mediaLoc (mp : Chars) : Bool :=
  containsSeq "/media".toList mp || containsSeq "/mnt".toList mp
    || containsSeq "/run/media".toList mp

/-- `device.endswith(('1','2','3','4','5','6','7','8','9'))` (storage_detector.py:134). -/
def endsDigit19 (l : Chars) : Bool :=
  match l.getLast? with
  | some c => ("123456789".toList).contains c
  | none => false

/-- The match test of method 2 on one record: blkid label first, then the
normalised mount path (storage_detector.py:144-154). -/
def matchesLabelOrNorm (pat : Chars) (r : MountRec) : Bool :=
  labelMatch pat r || matchCI pat (normalizeMp r.mountpoint)

/-- Method 2 (storage_detector.py:121-162): scan /proc/mounts rows; skip
whole `sd` devices without a partition digit; on a removable-media mount of a
disk device whose label or normalised mount path matches, return it. -/
def method2 (pat : Chars) : List MountRec → Option Chars
  | [] => none
  | r :: rest =>
    if containsSeq "/dev/sd".toList r.device && !endsDigit19 r.device then method2 pat rest
    else
      if (containsSeq "/dev/sd".toList r.device || containsSeq "/dev/mmcblk".toList r.device)
          && mediaLoc r.mountpoint && matchesLabelOrNorm pat r then
        some (normalizeMp r.mountpoint)
      else method2 pat rest

/-- One base directory of method 3: the mounted entries directly under
`base` whose directory-entry name matches (storage_detector.py:166-183). -/
def method3Dir (pat base : Chars) : List MountRec → Option Chars
  | [] => none
  | r :: rest =>
    if dirnameOf r.mountpoint == base && matchCI pat (basenameOf r.mountpoint) then
      some r.mountpoint
    else method3Dir pat base rest

/-- Method 3 (storage_detector.py:164-192): scan `/run/media`, `/media`,
`/mnt` in order for a mount point whose entry name matches. -/
def method3 (pat : Chars) (table : List MountRec) : Option Chars :=
  match method3Dir pat "/run/media".toList table with
  | some mp => some mp
  | none =>
    match method3Dir pat "/media".toList table with
    | some mp => some mp
    | none => method3Dir pat "/mnt".toList table

/-- Method 4 (storage_detector.py:194-228): df rows in removable-media
locations whose mount path matches. -/
def method4 (pat : Chars) : List MountRec → Option Chars
  | [] => none
  | r :: rest =>
    if mediaLoc r.mountpoint && matchCI pat r.mountpoint then some r.mountpoint
    else method4 pat rest

/-- `StorageDetector.find_device_mount_point` (storage_detector.py:64-231):
the four methods tried in order, first hit wins, else absent. -/
def findDeviceMountPoint (pat : Chars) (table : List MountRec) : Option Chars :=
  match method1 pat table with
  | some mp => some mp
  | none =>
    match method2 pat table with
    | some mp => some mp
    | none =>
      match method3 pat table with
      | some mp => some mp
      | none => method4 pat table

/-! ## Filename sanitization: `FileTransfer._sanitize_filename` (file_transfer.py:255-274) -/

/-- The characters kept by sanitization:
`c.isalnum() or c in (' ', '-', '_', '.')` (file_transfer.py:267), with
`isalnum` modelled on its ASCII alphanumerics. -/
def keepChar (c : Char) : Bool :=
  c.isAlphanum || c == ' ' || c == '-' || c == '_' || c == '.'

/-- The per-character replacement pass of `_sanitize_filename`. -/
def charSanitize (l : Chars) : Chars := l.map (fun c => if keepChar c then c else '_')

/-- Python slicing `l[:k]` for a possibly negative bound `k`. -/
def pySlice (l : Chars) (k : Int) : Chars :=
  if 0 ≤ k then l.take k.toNat else l.take ((l.length : Int) + k).toNat

/-- Python `os.path.splitext` on a separator-free filename: split at the last
dot unless every character before that dot is itself a dot. -/
def pySplitext (l : Chars) : Chars × Chars :=
  let rev := l.reverse
  let extRev := rev.takeWhile (fun c => c != '.')
  match rev.dropWhile (fun c => c != '.') with
  | [] => (l, [])
  | _ :: nameRev =>
    if nameRev.all (fun c => c == '.') then (l, [])
    else (nameRev.reverse, '.' :: extRev.reverse)

/-- `FileTransfer._sanitize_filename`: replace disallowed characters by
underscore; if the result exceeds 200 characters, truncate the stem to
`name[:200 - len(ext)]` and reattach the extension. -/
def sanitizeFilename (l : Chars) : Chars :=
  let s := charSanitize l
  if 200 < s.length then
    let ne := pySplitext s
    pySlice ne.1 ((200 : Int) - (ne.2.length : Int)) ++ ne.2
  else s

/-! ## WritableStore: `FileTransfer` (file_transfer.py)

The device filesystem is abstracted to the facts `FileTransfer` observes:
the /proc/mounts rows, whether the probe write at the mount root succeeds,
whether the music subdirectory exists / is writable / can be created,
the name-to-size table of files in the music subdirectory, the reported
free space (absent when `statvfs` fails), and whether a real `shutil.copy2`
succeeds.  A trace of filesystem-write events is recorded so that frame
claims ("no write was attempted") are expressible. -/

structure ProcMountRec where
  device : Chars
  mountpoint : Chars
  fstype : Chars
  options : Chars
deriving DecidableEq

/-- `'ro' in options.split(',')` (file_transfer.py:128). -/
def readOnlyOf (options : Chars) : Bool := (splitComma options).contains "ro".toList

/-- `FileTransfer._get_mount_info` (file_transfer.py:105-133): first
/proc/mounts row whose (normalised) mount path equals the device mount path. -/
def getMountInfo (mp : Chars) (mounts : List ProcMountRec) : Option ProcMountRec :=
  mounts.find? (fun r => normalizeMp r.mountpoint == normalizeMp mp || r.mountpoint == mp)

structure Device where
  procMounts : List ProcMountRec
  rootWritable : Bool
  musicDirExists : Bool
  musicDirWritable : Bool
  mkdirOk : Bool
  files : List (Chars × Nat)
  freeSpace : Option Nat
  copyOk : Bool
deriving DecidableEq

/-- Filesystem-write events performed by the store. -/
inductive FsEvent where
  | probeAttempt
  | probeRemove
  | mkdirMusic
  | copyData (dest : Chars)
deriving DecidableEq

/-- Whether an event is a byte-level write of a destination file. -/
def isCopyWrite : FsEvent → Bool
  | FsEvent.copyData _ => true
  | _ => false

/-- Number of byte-level destination writes in a trace. -/
def countCopyEvents (evs : List FsEvent) : Nat := evs.countP isCopyWrite

/-- The read-only test at the head of `ensure_music_directory`
(file_transfer.py:34-42): mount info resolved and flagged `ro`. -/
def roResolved (mp : Chars) (dev : Device) : Bool :=
  match getMountInfo mp dev.procMounts with
  | some mi => readOnlyOf mi.options
  | none => false

/-- `FileTransfer.ensure_music_directory` (file_transfer.py:26-103):
read-only check, probe write-then-delete at the mount root, then existence /
writability / creation of the music subdirectory. -/
def ensureMusicDirectory (mp : Chars) (dev : Device) : Bool × Device × List FsEvent :=
  if roResolved mp dev then (false, dev, [])
  else if !dev.rootWritable then (false, dev, [FsEvent.probeAttempt])
  else if dev.musicDirExists then
    if dev.musicDirWritable then (true, dev, [FsEvent.probeAttempt, FsEvent.probeRemove])
    else (false, dev, [FsEvent.probeAttempt, FsEvent.probeRemove])
  else if dev.mkdirOk then
    (true, { dev with musicDirExists := true },
     [FsEvent.probeAttempt, FsEvent.probeRemove, FsEvent.mkdirMusic])
  else (false, dev, [FsEvent.probeAttempt, FsEvent.probeRemove])

/-- Size lookup in the music-subdirectory file table. -/
def lookupSize (files : List (Chars × Nat)) (nm : Chars) : Option Nat :=
  (files.find? (fun p => p.1 == nm)).map Prod.snd

/-- The file-table update performed by a completed `shutil.copy2`. -/
def setSize (files : List (Chars × Nat)) (nm : Chars) (sz : Nat) : List (Chars × Nat) :=
  (nm, sz) :: files.filter (fun p => !(p.1 == nm))

/-- The free-space refusal `free_space is not None and file_size > free_space`
(file_transfer.py:220). -/
def spaceRefused (free : Option Nat) (sz : Nat) : Bool :=
  match free with
  | some f => decide (f < sz)
  | none => false

/-- The tail of `copy_file` after the skip test: free-space check, then the
real copy (file_transfer.py:216-234). -/
def copyAttempt (destPath destName : Chars) (srcSize : Nat) (dev : Device)
    (evs : List FsEvent) : Option Chars × Device × List FsEvent :=
  if spaceRefused dev.freeSpace srcSize then (none, dev, evs)
  else if dev.copyOk then
    (some destPath, { dev with files := setSize dev.files destName srcSize },
     evs ++ [FsEvent.copyData destName])
  else (none, dev, evs)

/-- `FileTransfer.copy_file` (file_transfer.py:179-234).  `srcPresent` and
`srcSize` are the source file's existence and byte size; `destOpt` is the
optional destination filename (defaulting to the source basename `srcBase`). -/
def copyFile (mp musicDir : Chars) (dev : Device) (srcPresent : Bool) (srcSize : Nat)
    (srcBase : Chars) (destOpt : Option Chars) : Option Chars × Device × List FsEvent :=
  if !srcPresent then (none, dev, [])
  else
    let e := ensureMusicDirectory mp dev
    if !e.1 then (none, e.2.1, e.2.2)
    else
      let destName := sanitizeFilename (destOpt.getD srcBase)
      let destPath := joinPath (joinPath mp musicDir) destName
      match lookupSize e.2.1.files destName with
      | some sz =>
        if srcSize == sz then (some destPath, e.2.1, e.2.2)
        else copyAttempt destPath destName srcSize e.2.1 e.2.2
      | none => copyAttempt destPath destName srcSize e.2.1 e.2.2

/-! ## BatchSyncManager: `SyncNSwimApp.sync_random_music` (main.py:137-199)

The manifest `.syncnswim_music.json` lives at the device root and is
modelled as its parsed `files` list (`none` = file absent or unparsable,
`music_selector.py:105-127`).  `rootFiles` are the names of the regular
files at the device root; the store's music subdirectory table lives in
`Device.files`.  The model assumes a nonempty configured music
subdirectory (the default configuration uses `MUSIC`,
config_manager.py:43), so the root namespace and the subdirectory
namespace are disjoint. -/

structure Src where
  path : Chars
  size : Nat
  present : Bool
deriving DecidableEq

structure SyncState where
  dev : Device
  manifest : Option (List Chars)
  rootFiles : List Chars
deriving DecidableEq

structure SyncResult where
  deletedCount : Nat
  copiedSources : List Chars
  manifestSaved : Option (List Chars)
  events : List FsEvent
deriving DecidableEq

/-- The previous-batch deletion loop (main.py:157-169): for each manifest
name, delete `os.path.join(mount_point, filename)` when it exists as a
regular file — a path at the device ROOT, not in the music subdirectory. -/
def deleteBatch (prev : List Chars) (rootFiles : List Chars) : List Chars × Nat :=
  match prev with
  | [] => (rootFiles, 0)
  | nm :: rest =>
    if rootFiles.contains nm then
      let r := deleteBatch rest (rootFiles.erase nm)
      (r.1, r.2 + 1)
    else deleteBatch rest rootFiles

/-- The copy loop (main.py:182-192): `copy_file(source, basename(source))`
per selected file; successful items contribute their SOURCE path to
`copied_files`. -/
def copyLoop (mp musicDir : Chars) (dev : Device) : List Src → Device × List Chars × List FsEvent
  | [] => (dev, [], [])
  | s :: rest =>
    let c := copyFile mp musicDir dev s.present s.size (basenameOf s.path) (some (basenameOf s.path))
    let r := copyLoop mp musicDir c.2.1 rest
    (r.1, (if c.1.isSome then [s.path] else []) ++ r.2.1, c.2.2 ++ r.2.2)

/-- One music-mode sync pass, `SyncNSwimApp.sync_random_music`
(main.py:137-199), with the selector's random pick supplied as `selected`.
`manifestSaved` records the argument of `save_selected_files_list`
(`none` = the save was never called). -/
def syncRandomMusicPass (mp musicDir : Chars) (st : SyncState) (selected : List Src) :
    SyncState × SyncResult :=
  let prev := st.manifest.getD []
  let del := deleteBatch prev st.rootFiles
  if selected.isEmpty then
    ({ st with rootFiles := del.1 }, ⟨del.2, [], none, []⟩)
  else
    let c := copyLoop mp musicDir st.dev selected
    if c.2.1.isEmpty then
      ({ dev := c.1, manifest := st.manifest, rootFiles := del.1 }, ⟨del.2, [], none, c.2.2⟩)
    else
      ({ dev := c.1, manifest := some (c.2.1.map basenameOf), rootFiles := del.1 },
       ⟨del.2, c.2.1, some (c.2.1.map basenameOf), c.2.2⟩)

/-! ## MusicSelector (music_selector.py) -/

/-- `MusicSelector.AUDIO_EXTENSIONS` (music_selector.py:17). -/
def musicExtList : List Chars :=
  [".mp3".toList, ".m4a".toList, ".aac".toList, ".flac".toList,
   ".ogg".toList, ".wav".toList, ".wma".toList, ".opus".toList]

/-- `pathlib.Path(file).suffix`: the extension of a separator-free name,
empty when the last dot is the first or the last character. -/
def pathSuffix (nm : Chars) : Chars :=
  let rev := nm.reverse
  let extRev := rev.takeWhile (fun c => c != '.')
  match rev.dropWhile (fun c => c != '.') with
  | [] => []
  | _ :: nameRev => if nameRev.isEmpty || extRev.isEmpty then [] else '.' :: extRev.reverse

/-- `Path(file).suffix.lower() in AUDIO_EXTENSIONS` (music_selector.py:47). -/
def isMusicName (nm : Chars) : Bool := musicExtList.contains (lowerChars (pathSuffix nm))

/-- `MusicSelector.find_all_music_files` (music_selector.py:30-52) over a
source tree given as the walk's (directory, filename) pairs in walk order. -/
def findAllMusicFiles (tree : List (Chars × Chars)) : List Chars :=
  tree.filterMap (fun rf => if isMusicName rf.2 then some (joinPath rf.1 rf.2) else none)

/-- `MusicSelector.select_random_songs` (music_selector.py:54-73), with
`random.sample` supplied as the oracle `sampler`. -/
def selectRandomSongs (count : Nat) (tree : List (Chars × Chars))
    (sampler : List Chars → Nat → List Chars) : List Chars :=
  let all := findAllMusicFiles tree
  if all.isEmpty then []
  else if all.length ≤ count then all
  else sampler all count

/-- The documented contract of `random.sample(pop, k)` on a duplicate-free
population: `k` distinct elements of the population. -/
def samplerSpec (sampler : List Chars → Nat → List Chars) : Prop :=
  ∀ (l : List Chars) (k : Nat), l.Nodup → k ≤ l.length →
    (sampler l k).length = k ∧ (sampler l k).Nodup ∧ ∀ x ∈ sampler l k, x ∈ l

/-! ## Attribute resolution in the monitor path (main.py)

`SyncNSwimApp.run` and `SyncNSwimApp.sync_episodes` call methods on
`ConfigManager` and `FileTransfer` by name; a call to a name the class does
not define raises `AttributeError`.  The method-name tables below are
transcribed from config_manager.py and file_transfer.py. -/

inductive PyErr where
  | attributeErr (meth : Chars)
  | keyboardInterrupt
deriving DecidableEq

inductive PyResult where
  | ok
  | raised (e : PyErr)
deriving DecidableEq

/-- Python statement sequencing: a raised exception short-circuits. -/
def pySeq (a b : PyResult) : PyResult :=
  match a with
  | PyResult.ok => b
  | PyResult.raised e => PyResult.raised e

/-- The methods defined by `ConfigManager` (config_manager.py:10-143). -/
def configManagerMethods : List Chars :=
  ["__init__".toList, "_load_config".toList, "_default_config".toList,
   "save_config".toList, "get_podcasts".toList, "get_enabled_podcasts".toList,
   "add_podcast".toList, "remove_podcast".toList, "toggle_podcast".toList,
   "get_shokz_device_name".toList, "get_download_directory".toList,
   "get_device_music_directory".toList, "get_storage_wait_timeout".toList]

/-- The methods defined by `FileTransfer` (file_transfer.py:11-298). -/
def fileTransferMethods : List Chars :=
  ["__init__".toList, "ensure_music_directory".toList, "_get_mount_info".toList,
   "_is_mount_writable".toList, "get_device_free_space".toList,
   "get_file_size".toList, "file_exists_on_device".toList, "copy_file".toList,
   "copy_files".toList, "_sanitize_filename".toList, "list_device_files".toList]

/-- A Python attribute call: `AttributeError` when the class lacks the name. -/
def callMethod (methods : List Chars) (m : Chars) : PyResult :=
  if methods.contains m then PyResult.ok else PyResult.raised (PyErr.attributeErr m)

/-- The startup section of `SyncNSwimApp.run` (main.py:203-226): the config
accessors read before the monitor loop, in program order up to the first
failure point (main.py:215). -/
def runStartup : PyResult :=
  pySeq (callMethod configManagerMethods "get_shokz_device_name".toList)
  (pySeq (callMethod configManagerMethods "get_download_directory".toList)
  (pySeq (callMethod configManagerMethods "get_device_music_directory".toList)
  (callMethod configManagerMethods "get_music_source_directory".toList)))

/-- `SyncNSwimApp.sync_episodes` on a mounted device (main.py:31-85), method
calls in program order: mount info and free space are read, then the music
source directory (main.py:70); in podcast-only mode the pass continues to
the cleanup calls (main.py:76-78). -/
def syncEpisodesPass : PyResult :=
  pySeq (callMethod fileTransferMethods "_get_mount_info".toList)
  (pySeq (callMethod fileTransferMethods "get_device_free_space".toList)
  (pySeq (callMethod configManagerMethods "get_music_source_directory".toList)
  (pySeq (callMethod configManagerMethods "get_cleanup_days".toList)
  (callMethod fileTransferMethods "cleanup_old_files".toList))))

/-- The exception handling of `SyncNSwimApp.run` (main.py:239-265): only
`KeyboardInterrupt` is caught (exiting 0); any other exception escapes and
the interpreter terminates with exit code 1. -/
def processExit (r : PyResult) : Option Nat :=
  match r with
  | PyResult.ok => none
  | PyResult.raised PyErr.keyboardInterrupt => some 0
  | PyResult.raised _ => some 1

/-! ## Concrete states used to evaluate the embedded code -/

/-- A mounted disk drive labelled `SWIM PRO`. -/
def mountRecSwim : MountRec :=
  ⟨"sda1".toList, "/dev/sda1".toList, some "SWIM PRO".toList, "/media/user/SWIM PRO".toList⟩

/-- A mounted nvme partition labelled `Shokz` whose mount path does not
contain the pattern: its label matches, but the device name is outside the
`sd*`/`mmcblk*` pools of methods 1 and 2, and methods 3 and 4 look only at
mount-path text. -/
def mountRecNvme : MountRec :=
  ⟨"nvme0n1p1".toList, "/dev/nvme0n1p1".toList, some "Shokz".toList,
   "/media/user/1234-5678".toList⟩

/-- A writable mounted device with an existing, empty music subdirectory. -/
def devW : Device :=
  ⟨[⟨"/dev/sda1".toList, "/m".toList, "vfat".toList, "rw,nosuid".toList⟩],
   true, true, true, true, [], some 1000, true⟩

/-- A device whose mount row carries the `ro` option. -/
def devRo : Device :=
  ⟨[⟨"/dev/sda1".toList, "/m".toList, "vfat".toList, "ro,nosuid".toList⟩],
   true, true, true, true, [], some 1000, true⟩

/-- The mount row of `devRo`. -/
def miRo : ProcMountRec := ⟨"/dev/sda1".toList, "/m".toList, "vfat".toList, "ro,nosuid".toList⟩

/-- A device whose probe write at the mount root fails. -/
def devNoWrite : Device := ⟨[], false, true, true, true, [], none, true⟩

/-- Sync state with no prior manifest. -/
def stNoManifest : SyncState := ⟨devNoWrite, none, []⟩

/-- A one-song selection. -/
def selOne : List Src := [⟨"/src/a.mp3".toList, 3, true⟩]

/-- A device whose music subdirectory holds the previous batch file `a.mp3`. -/
def devPrevBatch : Device := ⟨[], true, true, true, true, [("a.mp3".toList, 3)], some 1000, true⟩

/-- Sync state whose manifest lists `a.mp3`, placed by the previous pass in
the music subdirectory; the device root holds no regular files. -/
def stPrevBatch : SyncState := ⟨devPrevBatch, some ["a.mp3".toList], []⟩

/-- A writable device with free space `2`, its music subdirectory holding
`a.mp3` of size 7. -/
def devTight : Device :=
  ⟨[⟨"/dev/sda1".toList, "/m".toList, "vfat".toList, "rw".toList⟩],
   true, true, true, true, [("a.mp3".toList, 7)], some 2, true⟩

/-- A writable device whose free-space query fails. -/
def devNoStat : Device :=
  ⟨[⟨"/dev/sda1".toList, "/m".toList, "vfat".toList, "rw".toList⟩],
   true, true, true, true, [], none, true⟩

/-- A five-file source tree, one entry of which is not an audio file. -/
def treeFive : List (Chars × Chars) :=
  [("/src".toList, "a.mp3".toList), ("/src".toList, "b.MP3".toList),
   ("/src/sub".toList, "c.flac".toList), ("/src".toList, "notes.txt".toList),
   ("/src".toList, "d.ogg".toList), ("/src/sub".toList, "e.wav".toList)]

/-- A 260-character filename: 256 `a`s and the extension `.mp3`. -/
def lLong : Chars := List.replicate 256 'a' ++ ".mp3".toList

/-! ## Helper lemmas -/

theorem containsSeq_append_left (pat x l : Chars) (h : containsSeq pat l = true) :
    containsSeq pat (x ++ l) = true := by
  induction x with
  | nil => simpa using h
  | cons c x ih => simp [containsSeq, ih]

theorem basename_split (p : Chars) :
    p = (p.reverse.dropWhile (fun c => c != '/')).reverse ++ basenameOf p := by
  unfold basenameOf
  rw [← List.reverse_append, List.takeWhile_append_dropWhile, List.reverse_reverse]

theorem matchCI_of_basename (pat p : Chars)
    (h : matchCI pat (basenameOf p) = true) : matchCI pat p = true := by
  unfold matchCI lowerChars at h ⊢
  rw [basename_split p, List.map_append]
  exact containsSeq_append_left _ _ _ h

theorem startsWithSeq_append_self (x y : Chars) : startsWithSeq x (x ++ y) = true := by
  induction x with
  | nil => rfl
  | cons c x ih => simp [startsWithSeq, ih]

theorem endsWithSeq_append (a b : Chars) : endsWithSeq b (a ++ b) = true := by
  unfold endsWithSeq
  rw [List.reverse_append]
  exact startsWithSeq_append_self _ _

theorem lookupSize_setSize (files : List (Chars × Nat)) (nm : Chars) (sz : Nat) :
    lookupSize (setSize files nm sz) nm = some sz := by
  simp [lookupSize, setSize, List.find?]

theorem method1_eq_none (pat : Chars) (table : List MountRec)
    (h : ∀ r ∈ table, matchesRec pat r = false) : method1 pat table = none := by
  induction table with
  | nil => rfl
  | cons r rest ih =>
    have hr := h r (List.mem_cons_self r rest)
    have hrest : ∀ x ∈ rest, matchesRec pat x = false :=
      fun x hx => h x (List.mem_cons_of_mem r hx)
    simp [method1, hr, ih hrest]

theorem method2_eq_none (pat : Chars) (table : List MountRec)
    (hwf : ∀ r ∈ table, wfRec r = true)
    (h : ∀ r ∈ table, matchesRec pat r = false) : method2 pat table = none := by
  induction table with
  | nil => rfl
  | cons r rest ih =>
    have hr := h r (List.mem_cons_self r rest)
    have hw := hwf r (List.mem_cons_self r rest)
    have hrest : ∀ x ∈ rest, matchesRec pat x = false :=
      fun x hx => h x (List.mem_cons_of_mem r hx)
    have hwrest : ∀ x ∈ rest, wfRec x = true :=
      fun x hx => hwf x (List.mem_cons_of_mem r hx)
    simp only [matchesRec, Bool.or_eq_false_iff] at hr
    simp only [wfRec, Bool.and_eq_true, beq_iff_eq] at hw
    have hln : matchesLabelOrNorm pat r = false := by
      simp [matchesLabelOrNorm, hr.1, hw.2]
      have := hr.2
      simpa [mpMatch] using this
    simp [method2, hln, ih hwrest hrest]

theorem method3Dir_eq_none (pat base : Chars) (table : List MountRec)
    (h : ∀ r ∈ table, matchesRec pat r = false) : method3Dir pat base table = none := by
  induction table with
  | nil => rfl
  | cons r rest ih =>
    have hr := h r (List.mem_cons_self r rest)
    have hrest : ∀ x ∈ rest, matchesRec pat x = false :=
      fun x hx => h x (List.mem_cons_of_mem r hx)
    simp only [matchesRec, Bool.or_eq_false_iff] at hr
    have hb : matchCI pat (basenameOf r.mountpoint) = false := by
      cases hcb : matchCI pat (basenameOf r.mountpoint) with
      | false => rfl
      | true =>
        have := matchCI_of_basename pat r.mountpoint hcb
        have hm := hr.2
        simp [mpMatch] at hm
        rw [this] at hm
        cases hm
    simp [method3Dir, hb, ih hrest]

theorem method3_eq_none (pat : Chars) (table : List MountRec)
    (h : ∀ r ∈ table, matchesRec pat r = false) : method3 pat table = none := by
  simp [method3, method3Dir_eq_none pat _ table h]

theorem method4_eq_none (pat : Chars) (table : List MountRec)
    (h : ∀ r ∈ table, matchesRec pat r = false) : method4 pat table = none := by
  induction table with
  | nil => rfl
  | cons r rest ih =>
    have hr := h r (List.mem_cons_self r rest)
    have hrest : ∀ x ∈ rest, matchesRec pat x = false :=
      fun x hx => h x (List.mem_cons_of_mem r hx)
    simp only [matchesRec, Bool.or_eq_false_iff] at hr
    have hm : matchCI pat r.mountpoint = false := by simpa [mpMatch] using hr.2
    simp [method4, hm, ih hrest]

theorem method1_finds (pat : Chars) (table : List MountRec)
    (hwf : ∀ r ∈ table, wfRec r = true)
    (hex : ∃ r ∈ table, matchesRec pat r = true) :
    ∃ r ∈ table, matchesRec pat r = true ∧ method1 pat table = some r.mountpoint := by
  induction table with
  | nil =>
    rcases hex with ⟨r, hr, _⟩
    exact absurd hr (List.not_mem_nil r)
  | cons r0 rest ih =>
    by_cases h0 : matchesRec pat r0 = true
    · refine ⟨r0, List.mem_cons_self r0 rest, h0, ?_⟩
      have hw := hwf r0 (List.mem_cons_self r0 rest)
      simp only [wfRec, Bool.and_eq_true] at hw
      simp [method1, h0, hw.1.1, hw.1.2]
    · have h0f : matchesRec pat r0 = false := by
        revert h0; cases matchesRec pat r0 <;> simp
      rcases hex with ⟨r, hrmem, hrm⟩
      have hrt : r ∈ rest := by
        rcases List.mem_cons.mp hrmem with h | h
        · rw [h] at hrm; exact absurd hrm h0
        · exact h
      obtain ⟨s, hs, hsm, heq⟩ :=
        ih (fun x hx => hwf x (List.mem_cons_of_mem r0 hx)) ⟨r, hrt, hrm⟩
      refine ⟨s, List.mem_cons_of_mem r0 hs, hsm, ?_⟩
      simpa [method1, h0f] using heq

/-- Claim C1 (amended): over every mount-table state whose records are
mounted `sd*`/`mmcblk*` disk drives with decoded mount paths, if some
record's filesystem label or mount path contains the configured device-name
pattern as a case-insensitive substring, `find_device_mount_point` returns
the mount path of such a matching record; if no record matches, it returns
`none`.  The restriction to disk-drive device names is necessary: see the
counterexample on a matching nvme record. -/
theorem deviceLocator_resolve_correct (pat : Chars) (table : List MountRec)
    (hwf : ∀ r ∈ table, wfRec r = true) :
    ((∃ r ∈ table, matchesRec pat r = true) →
      ∃ r ∈ table, matchesRec pat r = true ∧
        findDeviceMountPoint pat table = some r.mountpoint)
    ∧ ((∀ r ∈ table, matchesRec pat r = false) →
        findDeviceMountPoint pat table = none) := by
  constructor
  · intro hex
    obtain ⟨r, hr, hm, heq⟩ := method1_finds pat table hwf hex
    refine ⟨r, hr, hm, ?_⟩
    unfold findDeviceMountPoint
    rw [heq]
  · intro hnone
    unfold findDeviceMountPoint
    rw [method1_eq_none pat table hnone, method2_eq_none pat table hwf hnone,
      method3_eq_none pat table hnone, method4_eq_none pat table hnone]

/-- Witness for C1: a table holding one mounted drive labelled `SWIM PRO`
resolves pattern `swim` to its mount path. -/
theorem deviceLocator_resolve_correct_witness :
    ∃ r ∈ [mountRecSwim], matchesRec "swim".toList r = true ∧
      findDeviceMountPoint "swim".toList [mountRecSwim] = some r.mountpoint :=
  (deviceLocator_resolve_correct "swim".toList [mountRecSwim] (by decide)).1
    ⟨mountRecSwim, by decide, by decide⟩

/-- Counterexample for C1 as frozen (unrestricted over mounted records): the
table holding the mounted nvme partition labelled `Shokz` contains a record
matching pattern `shokz`, yet `find_device_mount_point` returns absent —
methods 1 and 2 filter on `sd*`/`mmcblk*` device names and methods 3 and 4
match only mount-path text. -/
theorem deviceLocator_unrestricted_counterexample :
    matchesRec "shokz".toList mountRecNvme = true
    ∧ findDeviceMountPoint "shokz".toList [mountRecNvme] = none := by
  decide

theorem mem_charSanitize (l : Chars) (c : Char) (hc : c ∈ charSanitize l) :
    keepChar c = true := by
  unfold charSanitize at hc
  rcases List.mem_map.mp hc with ⟨x, _, hx⟩
  by_cases hk : keepChar x = true
  · rw [if_pos hk] at hx; rw [← hx]; exact hk
  · rw [if_neg hk] at hx; rw [← hx]; decide

theorem mem_pySplitext_fst (s : Chars) (c : Char) (h : c ∈ (pySplitext s).1) : c ∈ s := by
  cases hd : s.reverse.dropWhile (fun c => c != '.') with
  | nil => simp only [pySplitext, hd] at h; exact h
  | cons d nameRev =>
    simp only [pySplitext, hd] at h
    by_cases hall : nameRev.all (fun c => c == '.') = true
    · rw [if_pos hall] at h; exact h
    · rw [if_neg hall] at h
      have h1 : c ∈ nameRev := List.mem_reverse.mp h
      have h2 : c ∈ s.reverse.dropWhile (fun c => c != '.') := by
        rw [hd]; exact List.mem_cons_of_mem d h1
      have h3 : c ∈ s.reverse := (List.dropWhile_sublist _).subset h2
      exact List.mem_reverse.mp h3

theorem mem_pySplitext_snd (s : Chars) (c : Char) (h : c ∈ (pySplitext s).2) :
    c = '.' ∨ c ∈ s := by
  cases hd : s.reverse.dropWhile (fun c => c != '.') with
  | nil => simp only [pySplitext, hd] at h; exact absurd h (List.not_mem_nil c)
  | cons d nameRev =>
    simp only [pySplitext, hd] at h
    by_cases hall : nameRev.all (fun c => c == '.') = true
    · rw [if_pos hall] at h; exact absurd h (List.not_mem_nil c)
    · rw [if_neg hall] at h
      rcases List.mem_cons.mp h with h1 | h1
      · exact Or.inl h1
      · right
        have h2 : c ∈ s.reverse.takeWhile (fun c => c != '.') := List.mem_reverse.mp h1
        have h3 : c ∈ s.reverse := (List.takeWhile_sublist _).subset h2
        exact List.mem_reverse.mp h3

/-- Claim C4 (amended): sanitization yields only characters from the allowed
set (alphanumeric, space, hyphen, underscore, dot — every other character
having been replaced by underscore); `"Ep #12: Q&A!.mp3"` sanitizes to
`"Ep _12_ Q_A_.mp3"` (the `&` is also replaced); a name of at most 200
characters after replacement is kept whole, and a longer one whose
extension part is itself at most 200 characters is truncated to at most 200
characters while preserving its trailing extension. -/
theorem sanitize_replaces_and_truncates (l : Chars) :
    sanitizeFilename ("Ep #12: Q&A!.mp3".toList) = "Ep _12_ Q_A_.mp3".toList
    ∧ (∀ c ∈ sanitizeFilename l, keepChar c = true)
    ∧ ((charSanitize l).length ≤ 200 →
        sanitizeFilename l = charSanitize l ∧ (sanitizeFilename l).length = l.length)
    ∧ (200 < (charSanitize l).length →
        (pySplitext (charSanitize l)).2.length ≤ 200 →
        (sanitizeFilename l).length ≤ 200
          ∧ endsWithSeq (pySplitext (charSanitize l)).2 (sanitizeFilename l) = true) := by
  refine ⟨by decide, ?_, ?_, ?_⟩
  · intro c hc
    by_cases h200 : 200 < (charSanitize l).length
    · simp only [sanitizeFilename, if_pos h200] at hc
      rcases List.mem_append.mp hc with h1 | h1
      · have h2 : c ∈ (pySplitext (charSanitize l)).1 := by
          unfold pySlice at h1
          split at h1 <;> exact List.take_subset _ _ h1
        exact mem_charSanitize l c (mem_pySplitext_fst _ c h2)
      · rcases mem_pySplitext_snd _ c h1 with h2 | h2
        · rw [h2]; decide
        · exact mem_charSanitize l c h2
    · simp only [sanitizeFilename, if_neg h200] at hc
      exact mem_charSanitize l c hc
  · intro h
    have h200 : ¬ 200 < (charSanitize l).length := by omega
    have heq : sanitizeFilename l = charSanitize l := by simp [sanitizeFilename, h200]
    refine ⟨heq, ?_⟩
    rw [heq]
    simp [charSanitize]
  · intro h200 hext
    simp only [sanitizeFilename, if_pos h200]
    constructor
    · rw [List.length_append]
      have hk : (0 : Int) ≤ (200 : Int) - ((pySplitext (charSanitize l)).2.length : Int) := by
        omega
      unfold pySlice
      rw [if_pos hk]
      have := List.length_take_le
        ((200 : Int) - ((pySplitext (charSanitize l)).2.length : Int)).toNat
        (pySplitext (charSanitize l)).1
      omega
    · exact endsWithSeq_append _ _

/-- Counterexample for C4 as frozen: the claimed sanitized form keeps `&`,
but the code replaces it (`&` is not alphanumeric and not in the kept set). -/
theorem sanitize_example_counterexample :
    ¬ (sanitizeFilename ("Ep #12: Q&A!.mp3".toList) = "Ep _12_ Q&A_.mp3".toList) := by
  decide

/-- Witness for C4: the 260-character name truncates to at most 200
characters and keeps its `.mp3` extension. -/
theorem sanitize_replaces_and_truncates_witness :
    (sanitizeFilename lLong).length ≤ 200
      ∧ endsWithSeq (pySplitext (charSanitize lLong)).2 (sanitizeFilename lLong) = true :=
  (sanitize_replaces_and_truncates lLong).2.2.2 (by decide) (by decide)

theorem ensure_writable_exists (mp : Chars) (dev : Device)
    (hro : roResolved mp dev = false) (hrw : dev.rootWritable = true)
    (hmd : dev.musicDirExists = true) (hmw : dev.musicDirWritable = true) :
    ensureMusicDirectory mp dev
      = (true, dev, [FsEvent.probeAttempt, FsEvent.probeRemove]) := by
  simp [ensureMusicDirectory, hro, hrw, hmd, hmw]

theorem ensure_writable_mkdir (mp : Chars) (dev : Device)
    (hro : roResolved mp dev = false) (hrw : dev.rootWritable = true)
    (hmd : dev.musicDirExists = false) (hmk : dev.mkdirOk = true) :
    ensureMusicDirectory mp dev
      = (true, { dev with musicDirExists := true },
         [FsEvent.probeAttempt, FsEvent.probeRemove, FsEvent.mkdirMusic]) := by
  simp [ensureMusicDirectory, hro, hrw, hmd, hmk]

theorem copyFile_skip (mp md : Chars) (dev dev1 : Device) (evs : List FsEvent)
    (srcSize : Nat) (srcBase : Chars)
    (hens : ensureMusicDirectory mp dev = (true, dev1, evs))
    (hlk : lookupSize dev1.files (sanitizeFilename srcBase) = some srcSize) :
    copyFile mp md dev true srcSize srcBase none
      = (some (joinPath (joinPath mp md) (sanitizeFilename srcBase)), dev1, evs) := by
  simp [copyFile, hens, hlk]

theorem copyFile_write (mp md : Chars) (dev dev1 : Device) (evs : List FsEvent)
    (srcSize : Nat) (srcBase : Chars)
    (hens : ensureMusicDirectory mp dev = (true, dev1, evs))
    (hlk : ¬ lookupSize dev1.files (sanitizeFilename srcBase) = some srcSize)
    (hsp : spaceRefused dev1.freeSpace srcSize = false)
    (hcp : dev1.copyOk = true) :
    copyFile mp md dev true srcSize srcBase none
      = (some (joinPath (joinPath mp md) (sanitizeFilename srcBase)),
         { dev1 with files := setSize dev1.files (sanitizeFilename srcBase) srcSize },
         evs ++ [FsEvent.copyData (sanitizeFilename srcBase)]) := by
  cases hl : lookupSize dev1.files (sanitizeFilename srcBase) with
  | none => simp [copyFile, hens, hl, copyAttempt, hsp, hcp]
  | some sz =>
    have hne : (srcSize == sz) = false := by
      rw [hl] at hlk
      simp only [beq_eq_false_iff_ne, ne_eq]
      intro he
      exact hlk (by rw [he])
    simp [copyFile, hens, hl, hne, copyAttempt, hsp, hcp]

theorem copyFile_refuse (mp md : Chars) (dev dev1 : Device) (evs : List FsEvent)
    (srcSize : Nat) (srcBase : Chars)
    (hens : ensureMusicDirectory mp dev = (true, dev1, evs))
    (hlk : ¬ lookupSize dev1.files (sanitizeFilename srcBase) = some srcSize)
    (hsp : spaceRefused dev1.freeSpace srcSize = true) :
    copyFile mp md dev true srcSize srcBase none = (none, dev1, evs) := by
  cases hl : lookupSize dev1.files (sanitizeFilename srcBase) with
  | none => simp [copyFile, hens, hl, copyAttempt, hsp]
  | some sz =>
    have hne : (srcSize == sz) = false := by
      rw [hl] at hlk
      simp only [beq_eq_false_iff_ne, ne_eq]
      intro he
      exact hlk (by rw [he])
    simp [copyFile, hens, hl, hne, copyAttempt, hsp]

/-- Claim C8: whenever the mount row resolved for the device's mount path is
flagged read-only, `ensure_music_directory` returns false with the device
state unchanged (no directory created) and an empty write trace (no probe
marker attempted). -/
theorem ensure_ro_no_write (mp : Chars) (dev : Device) (mi : ProcMountRec)
    (hmi : getMountInfo mp dev.procMounts = some mi)
    (hro : readOnlyOf mi.options = true) :
    ensureMusicDirectory mp dev = (false, dev, ([] : List FsEvent)) := by
  have h : roResolved mp dev = true := by simp [roResolved, hmi, hro]
  simp [ensureMusicDirectory, h]

/-- Witness for C8: a device mounted `ro,nosuid` fails `ensure_music_directory`
without any write event. -/
theorem ensure_ro_no_write_witness :
    ensureMusicDirectory "/m".toList devRo = (false, devRo, ([] : List FsEvent)) :=
  ensure_ro_no_write "/m".toList devRo miRo (by decide) (by decide)

/-- Claim C6: on a writable store with an unchanged source, two successive
`copy_file` calls with the same arguments return the same (present)
destination path; the second call leaves the device state exactly as the
first left it and its trace contains no byte-level destination write (the
size-match skip: only the probe write-then-delete of `ensure_music_directory`
runs). -/
theorem copy_idempotent (mp md : Chars) (dev : Device) (srcSize : Nat) (srcBase : Chars)
    (hro : roResolved mp dev = false) (hrw : dev.rootWritable = true)
    (hmw : dev.musicDirWritable = true)
    (hmk : dev.musicDirExists = true ∨ dev.mkdirOk = true)
    (hsp : spaceRefused dev.freeSpace srcSize = false)
    (hcp : dev.copyOk = true) :
    (copyFile mp md dev true srcSize srcBase none).1.isSome = true
    ∧ (copyFile mp md (copyFile mp md dev true srcSize srcBase none).2.1
          true srcSize srcBase none).1
        = (copyFile mp md dev true srcSize srcBase none).1
    ∧ (copyFile mp md (copyFile mp md dev true srcSize srcBase none).2.1
          true srcSize srcBase none).2.1
        = (copyFile mp md dev true srcSize srcBase none).2.1
    ∧ countCopyEvents (copyFile mp md (copyFile mp md dev true srcSize srcBase none).2.1
          true srcSize srcBase none).2.2 = 0 := by
  by_cases hmd : dev.musicDirExists = true
  · have hens := ensure_writable_exists mp dev hro hrw hmd hmw
    by_cases hl : lookupSize dev.files (sanitizeFilename srcBase) = some srcSize
    · have h1 := copyFile_skip mp md dev dev _ srcSize srcBase hens hl
      simp [h1, countCopyEvents, isCopyWrite]
    · have h1 := copyFile_write mp md dev dev _ srcSize srcBase hens hl hsp hcp
      have hens2 := ensure_writable_exists mp
        { dev with files := setSize dev.files (sanitizeFilename srcBase) srcSize }
        hro hrw hmd hmw
      have hl2 := lookupSize_setSize dev.files (sanitizeFilename srcBase) srcSize
      have h2 := copyFile_skip mp md
        { dev with files := setSize dev.files (sanitizeFilename srcBase) srcSize }
        { dev with files := setSize dev.files (sanitizeFilename srcBase) srcSize }
        _ srcSize srcBase hens2 hl2
      simp [h1, h2, countCopyEvents, isCopyWrite]
  · have hmdf : dev.musicDirExists = false := by
      revert hmd; cases dev.musicDirExists <;> simp
    have hmkT : dev.mkdirOk = true := by
      rcases hmk with h | h
      · exact absurd h hmd
      · exact h
    have hens := ensure_writable_mkdir mp dev hro hrw hmdf hmkT
    by_cases hl : lookupSize ({ dev with musicDirExists := true } : Device).files
        (sanitizeFilename srcBase) = some srcSize
    · have h1 := copyFile_skip mp md dev { dev with musicDirExists := true } _
        srcSize srcBase hens hl
      have hens2 := ensure_writable_exists mp { dev with musicDirExists := true }
        hro hrw rfl hmw
      have h2 := copyFile_skip mp md { dev with musicDirExists := true }
        { dev with musicDirExists := true } _ srcSize srcBase hens2 hl
      simp [h1, h2, countCopyEvents, isCopyWrite]
    · have h1 := copyFile_write mp md dev { dev with musicDirExists := true } _
        srcSize srcBase hens hl hsp hcp
      have hens2 := ensure_writable_exists mp
        { dev with musicDirExists := true,
                   files := setSize dev.files (sanitizeFilename srcBase) srcSize }
        hro hrw rfl hmw
      have hl2 := lookupSize_setSize dev.files (sanitizeFilename srcBase) srcSize
      have h2 := copyFile_skip mp md
        { dev with musicDirExists := true,
                   files := setSize dev.files (sanitizeFilename srcBase) srcSize }
        { dev with musicDirExists := true,
                   files := setSize dev.files (sanitizeFilename srcBase) srcSize }
        _ srcSize srcBase hens2 hl2
      simp [h1, h2, countCopyEvents, isCopyWrite]

/-- Witness for C6: on the concrete writable device `devW`, the first copy
of a 10-byte `a.mp3` returns a present destination path. -/
theorem copy_idempotent_witness :
    (copyFile "/m".toList "MUSIC".toList devW true 10 "a.mp3".toList none).1.isSome = true :=
  (copy_idempotent "/m".toList "MUSIC".toList devW 10 "a.mp3".toList
    (by decide) (by decide) (by decide) (by decide) (by decide) (by decide)).1

/-- Claim C7: on a writable store, `copy_file` overwrites an existing
destination whose size differs from the source (the table afterwards maps
the destination to the source size), and — when the copy is not skipped by
the size-match rule — a reported free space smaller than the source size
makes it return absent with the file table unchanged and no byte-level
write performed. -/
theorem copy_overwrites_and_refuses (mp md : Chars) (dev : Device) (srcSize : Nat)
    (srcBase : Chars)
    (hro : roResolved mp dev = false) (hrw : dev.rootWritable = true)
    (hmd : dev.musicDirExists = true) (hmw : dev.musicDirWritable = true) :
    (∀ dsz, lookupSize dev.files (sanitizeFilename srcBase) = some dsz →
      ¬ dsz = srcSize → spaceRefused dev.freeSpace srcSize = false → dev.copyOk = true →
      (copyFile mp md dev true srcSize srcBase none).1
          = some (joinPath (joinPath mp md) (sanitizeFilename srcBase))
        ∧ lookupSize (copyFile mp md dev true srcSize srcBase none).2.1.files
            (sanitizeFilename srcBase) = some srcSize)
    ∧ (∀ f, dev.freeSpace = some f → f < srcSize →
      ¬ lookupSize dev.files (sanitizeFilename srcBase) = some srcSize →
      (copyFile mp md dev true srcSize srcBase none).1 = none
        ∧ (copyFile mp md dev true srcSize srcBase none).2.1.files = dev.files
        ∧ countCopyEvents (copyFile mp md dev true srcSize srcBase none).2.2 = 0) := by
  have hens := ensure_writable_exists mp dev hro hrw hmd hmw
  constructor
  · intro dsz hlkd hne hsp hcp
    have hlk : ¬ lookupSize dev.files (sanitizeFilename srcBase) = some srcSize := by
      rw [hlkd]
      intro h
      exact hne (Option.some_inj.mp h)
    have h1 := copyFile_write mp md dev dev _ srcSize srcBase hens hlk hsp hcp
    rw [h1]
    exact ⟨rfl, lookupSize_setSize _ _ _⟩
  · intro f hfree hlt hlk
    have hsp : spaceRefused dev.freeSpace srcSize = true := by
      simp [spaceRefused, hfree, hlt]
    have h1 := copyFile_refuse mp md dev dev _ srcSize srcBase hens hlk hsp
    rw [h1]
    exact ⟨rfl, rfl, rfl⟩

/-- Witness for C7: on `devTight` (free space 2), copying a 9-byte `b.mp3`
returns absent. -/
theorem copy_overwrites_and_refuses_witness :
    (copyFile "/m".toList "MUSIC".toList devTight true 9 "b.mp3".toList none).1 = none :=
  ((copy_overwrites_and_refuses "/m".toList "MUSIC".toList devTight 9 "b.mp3".toList
    (by decide) (by decide) (by decide) (by decide)).2 2 (by decide) (by decide)
    (by decide)).1

/-- Claim C10: when the free-space query fails (`statvfs` error, reported
absent) on a writable store with an existing source and no size-match skip,
`copy_file` does not refuse: the space guard is bypassed and the copy is
performed (one byte-level destination write in the trace). -/
theorem copy_attempts_without_space_info (mp md : Chars) (dev : Device) (srcSize : Nat)
    (srcBase : Chars)
    (hro : roResolved mp dev = false) (hrw : dev.rootWritable = true)
    (hmd : dev.musicDirExists = true) (hmw : dev.musicDirWritable = true)
    (hfree : dev.freeSpace = none)
    (hlk : ¬ lookupSize dev.files (sanitizeFilename srcBase) = some srcSize)
    (hcp : dev.copyOk = true) :
    (copyFile mp md dev true srcSize srcBase none).1
        = some (joinPath (joinPath mp md) (sanitizeFilename srcBase))
    ∧ countCopyEvents (copyFile mp md dev true srcSize srcBase none).2.2 = 1 := by
  have hens := ensure_writable_exists mp dev hro hrw hmd hmw
  have hsp : spaceRefused dev.freeSpace srcSize = false := by simp [spaceRefused, hfree]
  have h1 := copyFile_write mp md dev dev _ srcSize srcBase hens hlk hsp hcp
  rw [h1]
  exact ⟨rfl, rfl⟩

/-- Witness for C10: `devNoStat` (failed free-space query) still receives the
copy of a 5-byte `a.mp3`. -/
theorem copy_attempts_without_space_info_witness :
    (copyFile "/m".toList "MUSIC".toList devNoStat true 5 "a.mp3".toList none).1
      = some (joinPath (joinPath "/m".toList "MUSIC".toList)
          (sanitizeFilename "a.mp3".toList)) :=
  (copy_attempts_without_space_info "/m".toList "MUSIC".toList devNoStat 5 "a.mp3".toList
    (by decide) (by decide) (by decide) (by decide) (by decide) (by decide) (by decide)).1

/-- Claim C9: with `n` discovered audio files and configured count `c`,
`select_random_songs` returns all `n` files when `n ≤ c`, and exactly `c`
distinct discovered files (drawn without replacement by `random.sample`)
when `n > c`. -/
theorem select_random_songs_count (tree : List (Chars × Chars)) (count : Nat)
    (sampler : List Chars → Nat → List Chars) (hs : samplerSpec sampler)
    (hnd : (findAllMusicFiles tree).Nodup) :
    ((findAllMusicFiles tree).length ≤ count →
      selectRandomSongs count tree sampler = findAllMusicFiles tree)
    ∧ (count < (findAllMusicFiles tree).length →
      (selectRandomSongs count tree sampler).length = count
      ∧ (selectRandomSongs count tree sampler).Nodup
      ∧ ∀ x ∈ selectRandomSongs count tree sampler, x ∈ findAllMusicFiles tree) := by
  constructor
  · intro hle
    by_cases hE : (findAllMusicFiles tree).isEmpty = true
    · have he : findAllMusicFiles tree = [] := by
        cases h : findAllMusicFiles tree with
        | nil => rfl
        | cons a l => rw [h] at hE; simp [List.isEmpty] at hE
      simp [selectRandomSongs, hE, he]
    · simp [selectRandomSongs, hE, hle]
  · intro hlt
    have hE : (findAllMusicFiles tree).isEmpty = false := by
      cases h : findAllMusicFiles tree with
      | nil => rw [h] at hlt; simp at hlt
      | cons a l => simp [List.isEmpty]
    have hnle : ¬ (findAllMusicFiles tree).length ≤ count := by omega
    have hres : selectRandomSongs count tree sampler
        = sampler (findAllMusicFiles tree) count := by
      simp [selectRandomSongs, hE, hnle]
    rw [hres]
    exact hs (findAllMusicFiles tree) count hnd (Nat.le_of_lt hlt)

/-- Witness for C9: the five-audio-file tree with requested count 20 selects
all five files (the `.txt` entry is excluded). -/
theorem select_random_songs_count_witness :
    selectRandomSongs 20 treeFive (fun l k => l.take k) = findAllMusicFiles treeFive :=
  (select_random_songs_count treeFive 20 (fun l k => l.take k)
    (fun l k hnd hk =>
      ⟨by rw [List.length_take]; omega,
       List.Nodup.sublist (List.take_sublist k l) hnd,
       fun x hx => List.take_subset k l hx⟩)
    (by decide)).1 (by decide)

/-- Claim C2 (amended): at the end of a music-mode sync pass the manifest is
rewritten only when at least one file was copied successfully, and then with
the basenames of the successful copies' SOURCE paths; when the succeeded set
is empty (all copies failed, or nothing was selected) `save_selected_files_list`
is not called and the stored manifest is left unchanged. -/
theorem sync_pass_manifest_saved_iff_copied (mp md : Chars) (st : SyncState)
    (selected : List Src) :
    (syncRandomMusicPass mp md st selected).2.manifestSaved
      = (if (syncRandomMusicPass mp md st selected).2.copiedSources.isEmpty then none
         else some ((syncRandomMusicPass mp md st selected).2.copiedSources.map basenameOf))
    ∧ (syncRandomMusicPass mp md st selected).1.manifest
      = (if (syncRandomMusicPass mp md st selected).2.copiedSources.isEmpty then st.manifest
         else some ((syncRandomMusicPass mp md st selected).2.copiedSources.map basenameOf)) := by
  by_cases hsel : selected.isEmpty = true
  · simp [syncRandomMusicPass, hsel]
  · by_cases hcp : (copyLoop mp md st.dev selected).2.1.isEmpty = true
    · simp [syncRandomMusicPass, hsel, hcp]
    · simp [syncRandomMusicPass, hsel, hcp]

/-- Counterexample for C2 as frozen: a pass whose only copy fails (probe
write at the mount root fails) ends with an empty succeeded set, and
`save_selected_files_list` is NOT called (`manifestSaved = none`), where the
claim requires a save with the empty list. -/
theorem sync_pass_save_skipped_counterexample :
    (syncRandomMusicPass "/m".toList "MUSIC".toList stNoManifest selOne).2.copiedSources = []
    ∧ (syncRandomMusicPass "/m".toList "MUSIC".toList stNoManifest selOne).2.manifestSaved
        = none := by
  decide

/-- Claim C3 evaluated at its failing input: a manifest listing `a.mp3`,
which the previous pass placed in the store's music subdirectory `MUSIC`.
The deletion loop of `sync_random_music` joins each manifest name to the
MOUNT ROOT (main.py:161), so nothing is deleted (`deletedCount = 0`) and the
stale file is still in the music subdirectory after the pass, contradicting
the claim that manifest files are removed from the directory the store
writes into. -/
theorem sync_pass_stale_batch_survives :
    (syncRandomMusicPass "/m".toList "MUSIC".toList stPrevBatch []).2.deletedCount = 0
    ∧ (syncRandomMusicPass "/m".toList "MUSIC".toList stPrevBatch []).1.dev.files
        = [("a.mp3".toList, 3)] := by
  decide

/-- Claim C5 evaluated against the code: both at startup (main.py:215) and
in every sync pass on a mounted device (main.py:70), the monitor calls
`ConfigManager.get_music_source_directory`, a method the class does not
define; the resulting `AttributeError` is not a `KeyboardInterrupt`, escapes
`run`'s handler, and terminates the process with exit code 1 — so the
process can die without any user interrupt, contradicting the claim. -/
theorem monitor_dies_on_missing_config_methods :
    syncEpisodesPass = PyResult.raised (PyErr.attributeErr "get_music_source_directory".toList)
    ∧ runStartup = PyResult.raised (PyErr.attributeErr "get_music_source_directory".toList)
    ∧ processExit syncEpisodesPass = some 1
    ∧ processExit runStartup = some 1 := by
  decide

end SyncNSwim
